import Mathlib

/-!
Verification of the tool-calling chat bridge (`mcp-client/app.py`) and the
image-generation tool server (`mcp-server/server.py`).

The Python source is shallowly embedded: every function below mirrors the
control flow of the source function of the same name.  External collaborators
(the Anthropic API, the fastmcp client, the Gradio backend, the file system)
are modelled as explicit data supplied to the embedded functions: the chat
model is an oracle list of responses, the tool provider is a function from
tool name and input to a result-or-error, and exceptions are `Except.error`
values.  Duck-typed Python values (`getattr`/`hasattr` probing) are modelled
with `Option` fields: `none` means the attribute is absent.
-/

namespace MCPApp

/-! ## Tool Descriptor Translator (`convert_mcp_tool_to_claude_format`) -/

/-- JSON-schema fragment for one tool parameter, as built by the translator
(the `param_def` dict in the source).  An `array`-typed parameter carries
`items = some "string"`. -/
structure ParamDef where
  type : String
  description : String
  items : Option String
  enumVals : Option (List String)
  deriving DecidableEq, Repr

/-- A value of the output `properties` map: either a JSON fragment passed
through unchanged from an explicit structured schema, or a `ParamDef` built
by the translator itself. -/
inductive PropVal where
  | fromSchema (fragment : String)
  | built (d : ParamDef)
  deriving DecidableEq, Repr

/-- The `input_schema` dict of a descriptor: the source probes the keys
`"properties"` and `"required"` separately, so each is optional. -/
structure SchemaDict where
  properties : Option (List (String × PropVal))
  required : Option (List String)
  deriving DecidableEq, Repr

/-- The value found at `inputSchema` / `input_schema`: the source only uses it
when `isinstance(input_schema, dict)` holds. -/
inductive SchemaVal where
  | dict (d : SchemaDict)
  | nondict
  deriving DecidableEq, Repr

/-- One entry of a descriptor's explicit parameter list.  Every field is read
with `getattr(..., default)` or guarded by `hasattr`, hence optional. -/
structure MCPParam where
  name : Option String
  type : Option String
  description : Option String
  required : Option Bool
  enumVals : Option (List String)
  deriving DecidableEq, Repr

/-- A Python type annotation on a call-signature parameter, as compared by the
source against `str`, `int`, `float`, `bool`, `list`, `dict`. -/
inductive PyAnn where
  | pyStr
  | pyInt
  | pyFloat
  | pyBool
  | pyList
  | pyDict
  | otherAnn
  deriving DecidableEq, Repr

/-- One call-signature parameter: `ann = none` models an absent or
`Parameter.empty` annotation; `hasDefault` models `default != empty`. -/
structure SigParam where
  ann : Option PyAnn
  hasDefault : Bool
  deriving DecidableEq, Repr

/-- A call-signature-like structure (`tool_info.signature`), an ordered
mapping of parameter names to parameter info. -/
structure PySignature where
  parameters : List (String × SigParam)
  deriving DecidableEq, Repr

/-- A tool descriptor as probed by the source: every attribute access is
guarded, so every field is optional. -/
structure ToolInfo where
  name : Option String
  description : Option String
  inputSchema : Option SchemaVal
  input_schema : Option SchemaVal
  parameters : Option (List MCPParam)
  signature : Option PySignature
  deriving DecidableEq, Repr

/-- The `input_schema` object of the translated Claude tool. -/
structure InputSchemaOut where
  type : String
  properties : List (String × PropVal)
  required : List String
  deriving DecidableEq, Repr

/-- The translated Claude-format tool. -/
structure ClaudeTool where
  name : String
  description : String
  input_schema : InputSchemaOut
  deriving DecidableEq, Repr

/-- Python dict assignment `properties[k] = v`: overwrites in place if the key
exists, otherwise appends (Python dicts preserve insertion order). -/
def dictInsert (m : List (String × PropVal)) (k : String) (v : PropVal) :
    List (String × PropVal) :=
  if m.any (fun p => p.1 = k) then m.map (fun p => if p.1 = k then (k, v) else p)
  else m ++ [(k, v)]

/-- The source's chain of `if/elif` tests mapping a parameter-list type token
to a canonical type; an unrecognized token leaves the default `"string"`. -/
def typeMapMCP (t : String) : String :=
  if t = "string" ∨ t = "str" then "string"
  else if t = "integer" ∨ t = "int" then "integer"
  else if t = "number" ∨ t = "float" then "number"
  else if t = "boolean" ∨ t = "bool" then "boolean"
  else if t = "array" ∨ t = "list" then "array"
  else if t = "object" ∨ t = "dict" then "object"
  else "string"

/-- Build the `param_def` dict for one entry of an explicit parameter list. -/
def mcpParamDef (p : MCPParam) : ParamDef :=
  let param_type := match p.type with
    | none => "string"
    | some t => typeMapMCP t
  { type := param_type
  , description := p.description.getD ""
  , items := if param_type = "array" then some "string" else none
  , enumVals := match p.enumVals with
      | some l => if l ≠ [] then some l else none
      | none => none }

/-- The `for param in parameters` loop of the source: inserts one property per
parameter and appends required names in order. -/
def applyMCPParams (ps : List MCPParam) (props : List (String × PropVal))
    (req : List String) : List (String × PropVal) × List String :=
  ps.foldl (fun acc p =>
    (dictInsert acc.1 (p.name.getD "") (PropVal.built (mcpParamDef p)),
     if p.required.getD false then acc.2 ++ [p.name.getD ""] else acc.2))
    (props, req)

/-- The source's chain of annotation comparisons (`annotation == str` …);
anything else keeps the default `"string"`. -/
def annType : Option PyAnn → String
  | some PyAnn.pyStr => "string"
  | some PyAnn.pyInt => "integer"
  | some PyAnn.pyFloat => "number"
  | some PyAnn.pyBool => "boolean"
  | some PyAnn.pyList => "array"
  | some PyAnn.pyDict => "object"
  | _ => "string"

/-- The `for param_name, param_info in sig_params.items()` loop: skips
`self`, types by annotation, marks parameters without defaults required. -/
def applySigParams (sig : PySignature) (props : List (String × PropVal))
    (req : List String) : List (String × PropVal) × List String :=
  sig.parameters.foldl (fun acc pp =>
    if pp.1 = "self" then acc
    else
      (dictInsert acc.1 pp.1 (PropVal.built
         { type := annType pp.2.ann
         , description := pp.1 ++ " 파라미터"
         , items := none
         , enumVals := none }),
       if pp.2.hasDefault then acc.2 else acc.2 ++ [pp.1]))
    (props, req)

/-- Shallow embedding of `convert_mcp_tool_to_claude_format` (app.py 95-256).
The `try/except` wrapper of the source is unreachable here because every step
of the body is total on the typed descriptor. -/
def convert_mcp_tool_to_claude_format (tool_info : ToolInfo) : ClaudeTool :=
  -- camelCase checked first, then snake_case
  let input_schema := match tool_info.inputSchema with
    | some s => some s
    | none => tool_info.input_schema
  -- `properties` / `required` from an explicit structured schema
  let propsReq0 : List (String × PropVal) × List String := match input_schema with
    | some (SchemaVal.dict d) => (d.properties.getD [], d.required.getD [])
    | _ => ([], [])
  -- `if parameters and not properties:` (Python truthiness on both)
  let propsReq1 := match tool_info.parameters with
    | some ps =>
        if ps ≠ [] ∧ propsReq0.1 = [] then applyMCPParams ps propsReq0.1 propsReq0.2
        else propsReq0
    | none => propsReq0
  -- `if not properties and hasattr(tool_info, "signature"):`
  let propsReq2 := match tool_info.signature with
    | some sig => if propsReq1.1 = [] then applySigParams sig propsReq1.1 propsReq1.2
                  else propsReq1
    | none => propsReq1
  { name := tool_info.name.getD ""
  , description := tool_info.description.getD ""
  , input_schema :=
      { type := "object", properties := propsReq2.1, required := propsReq2.2 } }

/-! ## Tool Dispatcher (`handle_tool_calls`) -/

/-- The resolved tool input, a mapping of argument names to values.  Argument
values are opaque to the dispatcher, so they are modelled as strings. -/
abbrev InputMap : Type := List (String × String)

deriving instance DecidableEq for Except

/-- The `input` of a tool-use block: either already a mapping, or a JSON
string.  The outcome of the external `json.loads` on the string is carried in
the `parsed` field: `Except.error e` models a raised `JSONDecodeError` with
message `e`. -/
inductive ToolInput where
  | obj (m : InputMap)
  | jsonText (s : String) (parsed : Except String InputMap)
  deriving DecidableEq, Repr

/-- A tool-use request: `id` is read with `getattr(..., "unknown_id")`. -/
structure ToolCall where
  id : Option String
  name : String
  input : ToolInput
  deriving DecidableEq, Repr

/-- One item of a list-shaped tool result, as probed by the source: an item
whose `type` is `"text"`, an item whose `type` is `"image"` (its `data`
attribute may be absent, its `mimeType` defaults to `"image/jpeg"`), or an
item of any other shape (contributes nothing). -/
inductive MCPItem where
  | text (t : String)
  | image (data : Option String) (mimeType : Option String)
  | other
  deriving DecidableEq, Repr

/-- The value returned by `mcp_client.call_tool`, one of the shapes the source
normalizes: a list of typed content items; an object with a `text` attribute;
an object with a `content` attribute that is a list (each element already
rendered by `str`); an object with a non-list `content` attribute; or an
arbitrary value rendered by `str`. -/
inductive CallResult where
  | items (l : List MCPItem)
  | textAttr (t : String)
  | contentList (l : List String)
  | contentOther (s : String)
  | plain (s : String)
  deriving DecidableEq, Repr

/-- The connected MCP client, reduced to its one operation used by the
dispatcher: `call_tool`, which returns a result or raises (`Except.error`). -/
structure MCPClient where
  callTool : String → InputMap → Except String CallResult

/-- The `image_data` dict assembled from an image content item. -/
structure ImagePayload where
  data : String
  mime_type : String
  deriving DecidableEq, Repr

/-- A `tool_result` dict appended to `results`.  Success results carry no
`is_error` key in the source, which the Claude API reads as false; this is
modelled as `is_error = false`. -/
structure ToolResultOut where
  tool_use_id : String
  content : String
  is_error : Bool
  deriving DecidableEq, Repr

/-- Input resolution: `json.loads` on a string input, identity on a dict. -/
def resolveInput : ToolInput → Except String InputMap
  | ToolInput.obj m => Except.ok m
  | ToolInput.jsonText _ p => p

/-- The `for i, item in enumerate(result)` loop over a list-shaped result:
text items are appended to `result_content` followed by `"\n"`, and every
image item carrying a `data` attribute overwrites `image_data`. -/
def processItems (l : List MCPItem) (img0 : Option ImagePayload) :
    String × Option ImagePayload :=
  l.foldl (fun acc item =>
    match item with
    | MCPItem.text t => (acc.1 ++ t ++ "\n", acc.2)
    | MCPItem.image (some d) mt =>
        (acc.1, some { data := d, mime_type := mt.getD "image/jpeg" })
    | MCPItem.image none _ => acc
    | MCPItem.other => acc) ("", img0)

/-- Normalization of one `call_tool` result into `result_content`, threading
the batch-wide `image_data` variable. -/
def renderResult : CallResult → Option ImagePayload → String × Option ImagePayload
  | CallResult.items l, img => processItems l img
  | CallResult.textAttr t, img => (t, img)
  | CallResult.contentList l, img => (String.intercalate "\n" l, img)
  | CallResult.contentOther s, img => (s, img)
  | CallResult.plain s, img => (s, img)

/-- The body of the `for tool_call in tool_calls` loop for one call: resolve
the input, invoke the provider, normalize; any raised error is caught and
converted to an `is_error` result whose content embeds the error detail. -/
def processCall (c : MCPClient) (img : Option ImagePayload) (tc : ToolCall) :
    ToolResultOut × Option ImagePayload :=
  match resolveInput tc.input with
  | Except.error e =>
      ({ tool_use_id := tc.id.getD "unknown_id"
       , content := "도구 실행 오류: " ++ e
       , is_error := true }, img)
  | Except.ok m =>
      match c.callTool tc.name m with
      | Except.error e =>
          ({ tool_use_id := tc.id.getD "unknown_id"
           , content := "도구 실행 오류: " ++ e
           , is_error := true }, img)
      | Except.ok r =>
          let ri := renderResult r img
          ({ tool_use_id := tc.id.getD "unknown_id"
           , content := ri.1
           , is_error := false }, ri.2)

/-- The value returned by `handle_tool_calls`:
`results[0] if len(results) == 1 else results`. -/
inductive DispatchReturn where
  | single (o : ToolResultOut)
  | many (l : List ToolResultOut)
  deriving DecidableEq, Repr

/-- The outcome sequence carried by a `DispatchReturn` (the orchestration loop
re-wraps a single result into a list before use). -/
def outcomes : DispatchReturn → List ToolResultOut
  | DispatchReturn.single o => [o]
  | DispatchReturn.many l => l

/-- The source's final `results[0] if len(results) == 1 else results`. -/
def packResults (l : List ToolResultOut) : DispatchReturn :=
  match l with
  | [o] => DispatchReturn.single o
  | _ => DispatchReturn.many l

/-- Shallow embedding of `handle_tool_calls` (app.py 258-352).  The outer
`Except.error` models an exception escaping the function: with no connected
client the source evaluates `tool_calls[0]`, which raises `IndexError` on an
empty batch. -/
def handle_tool_calls (client : Option MCPClient) (tool_calls : List ToolCall) :
    Except String (DispatchReturn × Option ImagePayload) :=
  match client with
  | none =>
      match tool_calls with
      | [] => Except.error "IndexError: list index out of range"
      | tc :: _ =>
          Except.ok (DispatchReturn.single
            { tool_use_id := tc.id.getD "unknown_id"
            , content := "MCP 서버가 연결되지 않았습니다."
            , is_error := true }, none)
  | some c =>
      let rs := tool_calls.foldl (fun acc tc =>
        let oi := processCall c acc.2 tc
        (acc.1 ++ [oi.1], oi.2))
        (([] : List ToolResultOut), (none : Option ImagePayload))
      Except.ok (packResults rs.1, rs.2)

/-! ## Orchestration Loop (`predict`) -/

/-- One content block of a model response: a text block, a tool-use block, or
a block of any other type (skipped by the aggregation loop). -/
inductive ContentBlock where
  | text (t : String)
  | toolUse (tc : ToolCall)
  | otherBlock
  deriving DecidableEq, Repr

/-- One composed model response: ordered content blocks and the reported stop
reason (`none` models an absent `stop_reason` attribute). -/
structure ModelResponse where
  content : List ContentBlock
  stop_reason : Option String
  deriving DecidableEq, Repr

/-- The `text_content` accumulated over a response's content blocks. -/
def textOf : List ContentBlock → String
  | [] => ""
  | ContentBlock.text t :: rest => t ++ textOf rest
  | _ :: rest => textOf rest

/-- The `tool_use_blocks` collected over a response's content blocks, in
original order. -/
def toolUsesOf : List ContentBlock → List ToolCall
  | [] => []
  | ContentBlock.toolUse tc :: rest => tc :: toolUsesOf rest
  | _ :: rest => toolUsesOf rest

/-- One content block of a conversation message. -/
inductive MessageBlock where
  | text (t : String)
  | toolUse (tc : ToolCall)
  | toolResult (r : ToolResultOut)
  deriving DecidableEq, Repr

/-- Message content: plain strings for history entries, block lists for the
messages the loop appends. -/
inductive MsgContent where
  | ofString (s : String)
  | blocks (l : List MessageBlock)
  deriving DecidableEq, Repr

/-- One conversation message. -/
structure Message where
  role : String
  content : MsgContent
  deriving DecidableEq, Repr

/-- The `tool_use_message` assembled by the loop: the accumulated text of this
response (only if non-empty — `if text_content:`) followed by the tool-use
blocks in original order. -/
def assistantMessage (text_content : String) (tubs : List ToolCall) : Message :=
  { role := "assistant"
  , content := MsgContent.blocks
      ((if text_content = "" then [] else [MessageBlock.text text_content]) ++
        tubs.map MessageBlock.toolUse) }

/-- The `for result in tool_results: messages.append(...)` loop: one user
message per outcome, each wrapping a single tool-result block. -/
def toolResultMessages (rs : List ToolResultOut) : List Message :=
  rs.map (fun r => { role := "user", content := MsgContent.blocks [MessageBlock.toolResult r] })

/-- The literal appended to `full_response` after each tool dispatch. -/
def marker : String := "\n\n[도구 사용 중...]\n"

/-- Shallow embedding of the `while should_continue` loop of `predict`
(app.py 400-477).  The chat model is an oracle: a list of per-iteration
results of `client.messages.create`, where `Except.error` models a raised
API exception.  The loop result is the returned `(full_response, final_image)`
pair together with the final `messages` list (the source's `messages`
variable at exit); `none` means the oracle ran out before the loop reached a
terminal iteration. -/
def predictLoop (client : Option MCPClient) :
    List (Except String ModelResponse) → List Message → String →
    Option (String × String) → Option (String × Option (String × String) × List Message)
  | [], _, _, _ => none
  | Except.error e :: _, msgs, _, _ =>
      some ("API 오류가 발생했습니다: " ++ e, none, msgs)
  | Except.ok resp :: rest, msgs, full_response, final_image =>
      let text_content := textOf resp.content
      let tubs := toolUsesOf resp.content
      -- `if text_content: full_response += text_content`
      let fr := if text_content = "" then full_response
                else full_response ++ text_content
      -- `if not tool_use_blocks or not hasattr(response, "stop_reason")
      --     or response.stop_reason != "tool_use": return`
      if tubs = [] ∨ resp.stop_reason ≠ some "tool_use" then
        some (fr, final_image, msgs)
      else
        match handle_tool_calls client tubs with
        | Except.error e => some ("API 오류가 발생했습니다: " ++ e, none, msgs)
        | Except.ok (r, image_data) =>
            let final_image2 := match image_data with
              | some i => some (i.data, i.mime_type)
              | none => final_image
            let msgs2 := (msgs ++ [assistantMessage text_content tubs]) ++
              toolResultMessages (outcomes r)
            predictLoop client rest msgs2 (fr ++ marker) final_image2

/-- Shallow embedding of `predict` (app.py 354-481): empty-message guard,
history conversion, then the orchestration loop seeded with the prior history
plus the new user message. -/
def predict (client : Option MCPClient) (message : String)
    (history : List (String × String)) (oracle : List (Except String ModelResponse)) :
    Option (String × Option (String × String)) :=
  if message = "" ∨ message.trim = "" then some ("메시지를 입력해주세요.", none)
  else
    let msgs := (history.foldr (fun h acc =>
        { role := "user", content := MsgContent.ofString h.1 } ::
        { role := "assistant", content := MsgContent.ofString h.2 } :: acc) []) ++
      [{ role := "user", content := MsgContent.ofString message }]
    (predictLoop client oracle msgs "" none).map (fun r => (r.1, r.2.1))

/-! ## Session connection (`connect_to_mcp_server`) -/

/-- The process-wide session state: the globals `mcp_client` and `mcp_tools`. -/
structure SessionState where
  mcp_client : Option MCPClient
  mcp_tools : List ClaudeTool

/-- The environment of one `connect_to_mcp_server` call: which of the
externally-performed steps raise, and what the new provider yields.
`closeError = some e` means `mcp_client.close()` on the prior client raises;
`createError` covers `PythonStdioTransport`/`fastmcp.Client` construction;
`enterError` covers `__aenter__`; `listToolsResult` is the outcome of
`list_tools()`; `client` is the connected client on success. -/
structure ConnectWorld where
  closeError : Option String
  createError : Option String
  enterError : Option String
  listToolsResult : Except String (List ToolInfo)
  client : MCPClient

/-- Shallow embedding of `connect_to_mcp_server` (app.py 30-93), returning
the new session state, the result message, and the status string.  Every
failure path runs the outer `except`, which clears both globals.  The
empty-path early return leaves the globals as the teardown left them; since
in every reachable state `mcp_client = none` implies `mcp_tools = []`, that
is the cleared state. -/
def connect_to_mcp_server (w : ConnectWorld) (server_path : String)
    (s : SessionState) : SessionState × String × String :=
  match s.mcp_client, w.closeError with
  | some _, some e =>
      -- closing the prior client raised; caught by the outer except
      (⟨none, []⟩, "MCP 서버 연결 실패: " ++ e, "연결되지 않음")
  | _, _ =>
      -- prior client (if any) closed; globals cleared
      if server_path = "" ∨ server_path.trim = "" then
        (⟨none, []⟩, "서버 경로를 입력해주세요.", "연결되지 않음")
      else match w.createError with
      | some e =>
          (⟨none, []⟩, "MCP 서버 연결 실패: MCP 클라이언트 초기화 실패: " ++ e,
           "연결되지 않음")
      | none => match w.enterError with
        | some e =>
            (⟨none, []⟩, "MCP 서버 연결 실패: MCP 서버 연결 실패: " ++ e,
             "연결되지 않음")
        | none => match w.listToolsResult with
          | Except.error e =>
              (⟨none, []⟩, "MCP 서버 연결 실패: " ++ e, "연결되지 않음")
          | Except.ok tools_info =>
              let mts := tools_info.map convert_mcp_tool_to_claude_format
              (⟨some w.client, mts⟩, "MCP 서버 연결 성공: " ++ server_path,
               "연결됨 (도구 " ++ toString mts.length ++ "개)")

/-! ## Image-generation tool server (`generate_image`, server.py 27-97) -/

/-- One content item returned by the server tool. -/
inductive ServerContent where
  | text (t : String)
  | image (data : String) (mimeType : String)
  deriving DecidableEq, Repr

/-- The environment of one `generate_image` call: the Gradio backend call
(a function of the prompt; all other arguments are constants in the source),
the file system read, the external base64 encoder, and the formatted elapsed
time.  `Except.error` models a raised exception. -/
structure ServerWorld where
  infer : String → Except String (String × Int)
  readFile : String → Except String (List Nat)
  b64encode : List Nat → String
  elapsed : String

/-- Python `str.strip(".")`: drops leading and trailing dots. -/
def stripDots (s : String) : String :=
  String.mk (((s.data.dropWhile (fun c => c = Char.ofNat 46)).reverse.dropWhile
    (fun c => c = Char.ofNat 46)).reverse)

/-- Models `os.path.splitext(p)[0]`: the path with its extension removed.
The extension is the suffix from the last dot of the final path component,
ignoring leading dots of that component. -/
def splitextRoot (p : String) : String :=
  let rev := p.data.reverse
  let revBase := rev.takeWhile (fun c => c ≠ Char.ofNat 47)
  let base := revBase.reverse
  let lead := base.takeWhile (fun c => c = Char.ofNat 46)
  let rest := base.drop lead.length
  let revRest := rest.reverse
  if (revRest.takeWhile (fun c => c ≠ Char.ofNat 46)).length = revRest.length then p
  else String.mk ((p.data.take (p.data.length - base.length)) ++ lead ++
    (revRest.drop ((revRest.takeWhile (fun c => c ≠ Char.ofNat 46)).length + 1)).reverse)

/-- The fixed request text built before the `try` block (width, height and
model size are constants in the source). -/
def requestText (prompt : String) : String :=
  "'" ++ prompt ++ "'에 대한 이미지 생성 요청. 크기: 256x256 픽셀, 모델: 1.6B"

/-- The `mime_type` computation of the source (server.py 71-78), applied to
the first component of `os.path.splitext` exactly as the source does. -/
def mimeOf (image_path : String) : String :=
  let mt0 := splitextRoot image_path
  if mt0 = "" then "image/jpeg"
  else
    let m := "image/" ++ (stripDots mt0).toLower
    if m = "image/jpg" then "image/jpeg" else m

/-- Shallow embedding of the server tool `generate_image` (server.py 27-97).
Note the source assigns `os.path.splitext(image_path)` 's first component
(the root, not the extension) to `mime_type`; this is reproduced as-is. -/
def generate_image (w : ServerWorld) (prompt : String) : List ServerContent :=
  let response_text := requestText prompt
  match w.infer prompt with
  | Except.error e =>
      [ServerContent.text (response_text ++ "\n생성 실패: " ++ e)]
  | Except.ok (image_path, _) =>
      let mime_type := mimeOf image_path
      match w.readFile image_path with
      | Except.error e =>
          [ServerContent.text (response_text ++ "\n생성 실패: " ++ e)]
      | Except.ok bytes =>
          let base64_image := w.b64encode bytes
          let success_text := response_text ++ "\n생성 완료! (소요 시간: " ++
            w.elapsed ++ "초)"
          [ServerContent.text success_text,
           ServerContent.image base64_image mime_type]

/-! ## Theorems: Tool Descriptor Translator -/

theorem dictInsert_ne_nil (m : List (String × PropVal)) (k : String) (v : PropVal) :
    dictInsert m k v ≠ [] := by
  cases m with
  | nil => simp [dictInsert]
  | cons a t => unfold dictInsert; split <;> simp

theorem applyMCPParams_cons (p : MCPParam) (ps : List MCPParam)
    (props : List (String × PropVal)) (req : List String) :
    applyMCPParams (p :: ps) props req =
      applyMCPParams ps (dictInsert props (p.name.getD "") (PropVal.built (mcpParamDef p)))
        (if p.required.getD false then req ++ [p.name.getD ""] else req) := rfl

theorem applyMCPParams_fst_ne_nil_of_ne_nil (ps : List MCPParam)
    (props : List (String × PropVal)) (req : List String) (h : props ≠ []) :
    (applyMCPParams ps props req).1 ≠ [] := by
  induction ps generalizing props req with
  | nil => exact h
  | cons p ps ih =>
      rw [applyMCPParams_cons]
      exact ih _ _ (dictInsert_ne_nil _ _ _)

theorem applyMCPParams_fst_ne_nil (p : MCPParam) (ps : List MCPParam)
    (props : List (String × PropVal)) (req : List String) :
    (applyMCPParams (p :: ps) props req).1 ≠ [] := by
  rw [applyMCPParams_cons]
  exact applyMCPParams_fst_ne_nil_of_ne_nil _ _ _ (dictInsert_ne_nil _ _ _)

/-- Spec-side restatement of the translator's precedence, written as the spec
words it: properties come from the first matching source (structured schema
if it yields a non-empty properties map, else a non-empty explicit parameter
list, else the call signature, else empty); the schema-supplied `required`
list is the starting point that later sources append to. -/
def translate_spec (t : ToolInfo) : ClaudeTool :=
  let s := match t.inputSchema with
    | some v => some v
    | none => t.input_schema
  let base : List (String × PropVal) × List String := match s with
    | some (SchemaVal.dict d) => (d.properties.getD [], d.required.getD [])
    | _ => ([], [])
  let fromSig : List (String × PropVal) × List String := match t.signature with
    | some sig => applySigParams sig [] base.2
    | none => ([], base.2)
  let chosen :=
    if base.1 ≠ [] then base
    else match t.parameters with
      | some ps => if ps ≠ [] then applyMCPParams ps [] base.2 else fromSig
      | none => fromSig
  { name := t.name.getD ""
  , description := t.description.getD ""
  , input_schema :=
      { type := "object", properties := chosen.1, required := chosen.2 } }

theorem convert_eq_translate_spec (t : ToolInfo) :
    convert_mcp_tool_to_claude_format t = translate_spec t := by
  obtain ⟨n, dsc, is1, is2, pars, sg⟩ := t
  unfold convert_mcp_tool_to_claude_format translate_spec
  simp only
  generalize (match is1 with | some v => some v | none => is2) = sv
  rcases sv with _ | sv
  · -- no schema value at all: base = ([], [])
    rcases pars with _ | ps
    · rcases sg with _ | sig <;> simp
    · rcases ps with _ | ⟨p, ps⟩
      · rcases sg with _ | sig <;> simp
      · rcases sg with _ | sig
        · simp
        · simp [applyMCPParams_fst_ne_nil p ps]
  · rcases sv with d | _
    · -- a dict schema
      by_cases hp : d.properties.getD [] = []
      · rcases pars with _ | ps
        · rcases sg with _ | sig <;> simp [hp]
        · rcases ps with _ | ⟨p, ps⟩
          · rcases sg with _ | sig <;> simp [hp]
          · rcases sg with _ | sig
            · simp [hp]
            · simp [hp, applyMCPParams_fst_ne_nil p ps]
      · rcases pars with _ | ps
        · rcases sg with _ | sig <;> simp [hp]
        · rcases ps with _ | ⟨p, ps⟩ <;> rcases sg with _ | sig <;> simp [hp]
    · -- a non-dict schema value: base = ([], [])
      rcases pars with _ | ps
      · rcases sg with _ | sig <;> simp
      · rcases ps with _ | ⟨p, ps⟩
        · rcases sg with _ | sig <;> simp
        · rcases sg with _ | sig
          · simp
          · simp [applyMCPParams_fst_ne_nil p ps]

/-- No source yields any parameter information: the effective schema value
(if any) carries neither properties nor required names, the explicit
parameter list is absent or empty, and there is no call signature. -/
def noParamInfo (t : ToolInfo) : Prop :=
  (match (match t.inputSchema with | some v => some v | none => t.input_schema) with
    | some (SchemaVal.dict dd) => dd.properties.getD [] = [] ∧ dd.required.getD [] = []
    | _ => True) ∧
  (t.parameters = none ∨ t.parameters = some []) ∧ t.signature = none

/-- A descriptor with no attributes at all. -/
def emptyToolInfo : ToolInfo :=
  { name := none, description := none, inputSchema := none, input_schema := none
  , parameters := none, signature := none }

/-- C5: the translator is total (it is a Lean function over all typed
descriptors, so it never raises), always emits `input_schema.type = "object"`,
degrades a missing name or description to the empty string, and yields an
empty properties map and empty required list when no source provides
parameter information. -/
theorem convert_total_conservative (t : ToolInfo) :
    (convert_mcp_tool_to_claude_format t).input_schema.type = "object" ∧
    (t.name = none → (convert_mcp_tool_to_claude_format t).name = "") ∧
    (t.description = none → (convert_mcp_tool_to_claude_format t).description = "") ∧
    (noParamInfo t →
      (convert_mcp_tool_to_claude_format t).input_schema.properties = [] ∧
      (convert_mcp_tool_to_claude_format t).input_schema.required = []) := by
  obtain ⟨n, dsc, is1, is2, pars, sg⟩ := t
  refine ⟨rfl, ?_, ?_, ?_⟩
  · intro h; subst h; rfl
  · intro h; subst h; rfl
  · intro h
    obtain ⟨h1, h2, h3⟩ := h
    simp only at h1 h2 h3
    subst h3
    unfold convert_mcp_tool_to_claude_format
    simp only
    revert h1
    generalize (match is1 with | some v => some v | none => is2) = sv
    intro h1
    rcases sv with _ | sv
    · rcases h2 with h2 | h2 <;> subst h2 <;> simp
    · rcases sv with dd | _
      · obtain ⟨hp, hr⟩ := h1
        rcases h2 with h2 | h2 <;> subst h2 <;> simp [hp, hr]
      · rcases h2 with h2 | h2 <;> subst h2 <;> simp

/-- Witness for `convert_total_conservative` at the empty descriptor. -/
theorem convert_total_conservative_witness :
    (convert_mcp_tool_to_claude_format emptyToolInfo).input_schema.type = "object" ∧
    (convert_mcp_tool_to_claude_format emptyToolInfo).name = "" ∧
    (convert_mcp_tool_to_claude_format emptyToolInfo).description = "" ∧
    (convert_mcp_tool_to_claude_format emptyToolInfo).input_schema.properties = [] ∧
    (convert_mcp_tool_to_claude_format emptyToolInfo).input_schema.required = [] :=
  ⟨(convert_total_conservative emptyToolInfo).1,
   (convert_total_conservative emptyToolInfo).2.1 rfl,
   (convert_total_conservative emptyToolInfo).2.2.1 rfl,
   ((convert_total_conservative emptyToolInfo).2.2.2 ⟨trivial, Or.inl rfl, rfl⟩).1,
   ((convert_total_conservative emptyToolInfo).2.2.2 ⟨trivial, Or.inl rfl, rfl⟩).2⟩

/-- A descriptor whose structured schema supplies only `required` (no
`properties`) next to a non-empty explicit parameter list. -/
def toolInfoReqMerge : ToolInfo :=
  { name := some "t", description := none
  , inputSchema := some (SchemaVal.dict { properties := none, required := some ["a"] })
  , input_schema := none
  , parameters := some [{ name := some "b", type := some "str", description := none
                        , required := some true, enumVals := none }]
  , signature := none }

/-- C6 counterexample: the claim says the first matching source wins, but on
`toolInfoReqMerge` the translated `required` list is `["a", "b"]` — `"a"`
contributed by the structured schema and `"b"` by the explicit parameter
list — so two different sources contribute to the same output, while the
properties map comes entirely from the parameter list. -/
theorem convert_required_merges_sources :
    (convert_mcp_tool_to_claude_format toolInfoReqMerge).input_schema.required = ["a", "b"] ∧
    (convert_mcp_tool_to_claude_format toolInfoReqMerge).input_schema.properties =
      [("b", PropVal.built
        { type := "string", description := "", items := none, enumVals := none })] := by
  decide

/-- C6 (amended): properties are resolved by precedence keyed on whether the
properties map is still empty — a structured schema's non-empty properties
map first, else a non-empty explicit parameter list (with the fixed
type-token table and array items defaulting to string), else call-signature
introspection (string-typed unless the annotation maps to a known type,
parameters without defaults required), else empty — while the
schema-supplied `required` list is retained and appended to (not superseded)
by whichever later source runs.  `translate_spec` states exactly this
resolution, and the translator agrees with it on every descriptor. -/
theorem translator_precedence (t : ToolInfo) :
    convert_mcp_tool_to_claude_format t = translate_spec t ∧
    typeMapMCP "int" = "integer" ∧ typeMapMCP "str" = "string" ∧
    typeMapMCP "list" = "array" ∧ typeMapMCP "dict" = "object" ∧
    (∀ p : MCPParam, (mcpParamDef p).items =
      if (mcpParamDef p).type = "array" then some "string" else none) :=
  ⟨convert_eq_translate_spec t, rfl, rfl, rfl, rfl, fun _ => rfl⟩

/-! ## Theorems: Tool Dispatcher -/

/-- The text payloads of the text items of a list result, in order. -/
def itemTexts : List MCPItem → List String
  | [] => []
  | MCPItem.text t :: rest => t :: itemTexts rest
  | _ :: rest => itemTexts rest

/-- The image payloads of the image items carrying data, in order. -/
def itemImages : List MCPItem → List ImagePayload
  | [] => []
  | MCPItem.image (some d) mt :: rest =>
      { data := d, mime_type := mt.getD "image/jpeg" } :: itemImages rest
  | _ :: rest => itemImages rest

/-- Concatenation of text payloads, each terminated by a newline. -/
def textJoin : List String → String
  | [] => ""
  | t :: ts => t ++ "\n" ++ textJoin ts

/-- The last element of a list, else a fallback. -/
def lastOpt : List ImagePayload → Option ImagePayload → Option ImagePayload
  | [], i => i
  | p :: rest, _ => lastOpt rest (some p)

theorem lastOpt_append_last (xs : List ImagePayload) (i : Option ImagePayload)
    (p : ImagePayload) : lastOpt (xs ++ [p]) i = some p := by
  induction xs generalizing i with
  | nil => rfl
  | cons q xs ih => exact ih (some q)

theorem processItems_fold (l : List MCPItem) (s : String) (i : Option ImagePayload) :
    l.foldl (fun acc item =>
      match item with
      | MCPItem.text t => (acc.1 ++ t ++ "\n", acc.2)
      | MCPItem.image (some d) mt =>
          (acc.1, some { data := d, mime_type := mt.getD "image/jpeg" })
      | MCPItem.image none _ => acc
      | MCPItem.other => acc) (s, i) =
    (s ++ textJoin (itemTexts l), lastOpt (itemImages l) i) := by
  induction l generalizing s i with
  | nil => simp [itemTexts, itemImages, textJoin, lastOpt]
  | cons item rest ih =>
      cases item with
      | text t =>
          simp only [List.foldl_cons, itemTexts, itemImages, textJoin, lastOpt]
          rw [ih]
          simp [String.append_assoc]
      | image d mt =>
          cases d with
          | none => simpa [itemTexts, itemImages] using ih s i
          | some dd => simpa [itemTexts, itemImages, lastOpt] using ih s _
      | other => simpa [itemTexts, itemImages] using ih s i

theorem processItems_eq (l : List MCPItem) (i : Option ImagePayload) :
    processItems l i = (textJoin (itemTexts l), lastOpt (itemImages l) i) := by
  unfold processItems
  rw [processItems_fold]
  simp

/-- The outcome produced for one tool call (the image state threads through
the batch but never influences the outcome itself). -/
def callOutcome (c : MCPClient) (tc : ToolCall) : ToolResultOut :=
  (processCall c none tc).1

theorem processCall_fst (c : MCPClient) (img : Option ImagePayload) (tc : ToolCall) :
    (processCall c img tc).1 = callOutcome c tc := by
  cases hri : resolveInput tc.input with
  | error e => simp [callOutcome, processCall, hri]
  | ok m =>
      cases hct : c.callTool tc.name m with
      | error e => simp [callOutcome, processCall, hri, hct]
      | ok r =>
          cases r <;> simp [callOutcome, processCall, hri, hct, renderResult, processItems_eq]

/-- The final `image_data` of a dispatch batch. -/
def dispatchImage (c : MCPClient) : List ToolCall → Option ImagePayload → Option ImagePayload
  | [], i => i
  | tc :: rest, i => dispatchImage c rest (processCall c i tc).2

theorem dispatch_fold (c : MCPClient) (l : List ToolCall)
    (acc : List ToolResultOut) (i : Option ImagePayload) :
    l.foldl (fun acc tc =>
      let oi := processCall c acc.2 tc
      (acc.1 ++ [oi.1], oi.2)) (acc, i) =
    (acc ++ l.map (callOutcome c), dispatchImage c l i) := by
  induction l generalizing acc i with
  | nil => simp [dispatchImage]
  | cons tc rest ih =>
      simp only [List.foldl_cons, List.map_cons, dispatchImage]
      rw [ih]
      simp [processCall_fst, List.append_assoc]

theorem handle_tool_calls_some (c : MCPClient) (calls : List ToolCall) :
    handle_tool_calls (some c) calls =
      Except.ok (packResults (calls.map (callOutcome c)), dispatchImage c calls none) := by
  simp only [handle_tool_calls]
  rw [dispatch_fold]
  simp

theorem outcomes_packResults (l : List ToolResultOut) :
    outcomes (packResults l) = l := by
  unfold packResults
  split <;> rfl

/-- Projection used to compare batch size with outcome count: the number of
outcomes of a dispatch, or `none` when the dispatch raised. -/
def dispatchOutcomeCount (x : Except String (DispatchReturn × Option ImagePayload)) :
    Option Nat :=
  match x with
  | Except.ok (r, _) => some (outcomes r).length
  | Except.error _ => none

def tcA : ToolCall := { id := some "a", name := "t1", input := ToolInput.obj [] }

def tcB : ToolCall := { id := some "b", name := "t2", input := ToolInput.obj [] }

/-- C1 counterexample: with no active connection, dispatching the two-request
batch `[tcA, tcB]` yields one single outcome (not two), and dispatching the
empty batch raises `IndexError` (evaluating `tool_calls[0]`) instead of
returning the empty outcome sequence — refuting "one outcome per request,
never fewer, including when no tool-provider connection is active" and
"dispatch of the empty sequence returns the empty sequence". -/
theorem dispatch_not_connected_cex :
    dispatchOutcomeCount (handle_tool_calls none [tcA, tcB]) = some 1 ∧
    dispatchOutcomeCount (handle_tool_calls none ([] : List ToolCall)) = none :=
  ⟨rfl, rfl⟩

/-- C1 (amended): with an active connection, dispatch returns exactly one
outcome per request, in request order (so the empty batch yields the empty
outcome sequence); with no active connection it instead returns one single
not-connected error outcome bound to the first request's id, and raises
`IndexError` on the empty batch. -/
theorem dispatch_outcome_per_request (c : MCPClient) (calls : List ToolCall) :
    (∃ img, handle_tool_calls (some c) calls =
      Except.ok (packResults (calls.map (callOutcome c)), img)) ∧
    outcomes (packResults (calls.map (callOutcome c))) = calls.map (callOutcome c) ∧
    (calls.map (callOutcome c)).length = calls.length ∧
    (∀ (tc : ToolCall) (rest : List ToolCall),
      handle_tool_calls none (tc :: rest) = Except.ok (DispatchReturn.single
        { tool_use_id := tc.id.getD "unknown_id"
        , content := "MCP 서버가 연결되지 않았습니다."
        , is_error := true }, none)) ∧
    (∃ e, handle_tool_calls none ([] : List ToolCall) = Except.error e) :=
  ⟨⟨dispatchImage c calls none, handle_tool_calls_some c calls⟩,
   outcomes_packResults _, List.length_map _ _,
   fun _ _ => rfl, ⟨_, rfl⟩⟩

/-- The error detail raised while processing one call, if any: either the
input-resolution (`json.loads`) error or the provider-invocation error. -/
def callError (c : MCPClient) (tc : ToolCall) : Option String :=
  match resolveInput tc.input with
  | Except.error e => some e
  | Except.ok m =>
      match c.callTool tc.name m with
      | Except.error e => some e
      | Except.ok _ => none

theorem callOutcome_of_error (c : MCPClient) (tc : ToolCall) (e : String)
    (h : callError c tc = some e) :
    callOutcome c tc =
      { tool_use_id := tc.id.getD "unknown_id"
      , content := "도구 실행 오류: " ++ e
      , is_error := true } := by
  cases hri : resolveInput tc.input with
  | error e2 =>
      simp only [callError, hri] at h
      cases h
      simp [callOutcome, processCall, hri]
  | ok m =>
      cases hct : c.callTool tc.name m with
      | error e2 =>
          simp only [callError, hri, hct] at h
          cases h
          simp [callOutcome, processCall, hri, hct]
      | ok r => simp [callError, hri, hct] at h

/-- C4: with an active connection, a failure (raised during input resolution
or provider invocation) of the i-th call of a batch is caught within that
call — its outcome flags `is_error` and embeds the error detail in the
summary — while every other call of the batch still gets exactly its own
outcome, and the dispatch as a whole still succeeds with one outcome per
request. -/
theorem dispatch_isolates_failures (c : MCPClient) (calls : List ToolCall)
    (i : Nat) (tc : ToolCall) (e : String)
    (hget : calls[i]? = some tc) (hfail : callError c tc = some e) :
    (∃ img, handle_tool_calls (some c) calls =
      Except.ok (packResults (calls.map (callOutcome c)), img)) ∧
    (calls.map (callOutcome c))[i]? = some
      { tool_use_id := tc.id.getD "unknown_id"
      , content := "도구 실행 오류: " ++ e
      , is_error := true } ∧
    (∀ j, j ≠ i → (calls.map (callOutcome c))[j]? = (calls[j]?).map (callOutcome c)) := by
  refine ⟨⟨dispatchImage c calls none, handle_tool_calls_some c calls⟩, ?_, ?_⟩
  · rw [List.getElem?_map, hget]
    simp [callOutcome_of_error c tc e hfail]
  · intro j _
    rw [List.getElem?_map]

/-- A provider that raises exactly on the tool named "bad". -/
def clientFailsBad : MCPClient :=
  ⟨fun nm _ => if nm = "bad" then Except.error "boom"
               else Except.ok (CallResult.plain "ok")⟩

def callsWithFailure : List ToolCall :=
  [ { id := some "b1", name := "good", input := ToolInput.obj [] }
  , { id := some "b2", name := "bad", input := ToolInput.obj [] }
  , { id := some "b3", name := "good", input := ToolInput.obj [] } ]

/-- Witness for `dispatch_isolates_failures`: in a three-call batch whose
middle call raises, the middle outcome is the error outcome and the first
sibling still gets its own outcome. -/
theorem dispatch_isolates_failures_witness :
    (callsWithFailure.map (callOutcome clientFailsBad))[1]? = some
      { tool_use_id := "b2", content := "도구 실행 오류: boom", is_error := true } ∧
    (callsWithFailure.map (callOutcome clientFailsBad))[0]? =
      (callsWithFailure[0]?).map (callOutcome clientFailsBad) := by
  obtain ⟨_, h2, h3⟩ := dispatch_isolates_failures clientFailsBad callsWithFailure 1
    { id := some "b2", name := "bad", input := ToolInput.obj [] } "boom" rfl rfl
  exact ⟨h2, h3 0 (by decide)⟩

/-- A provider whose result carries two image items. -/
def clientTwoImages : MCPClient :=
  ⟨fun _ _ => Except.ok (CallResult.items
    [ MCPItem.image (some "A") (some "image/png")
    , MCPItem.image (some "B") (some "image/png") ])⟩

/-- C7 counterexample: for a result whose content list holds two image items
(payloads "A" then "B"), the dispatcher returns the SECOND item's payload as
the batch image — each image item overwrites the previous one — refuting the
claim that at most the first image item's payload is retained and later ones
discarded. -/
theorem dispatch_keeps_last_image :
    handle_tool_calls (some clientTwoImages)
      [{ id := some "i", name := "gen", input := ToolInput.obj [] }] =
    Except.ok (DispatchReturn.single
      { tool_use_id := "i", content := "", is_error := false },
      some { data := "B", mime_type := "image/png" }) := by
  rfl

/-- C7 (amended): for a list-shaped tool result the dispatcher concatenates
the text items in order, each followed by a newline separator, into the
outcome's text summary, and retains the LAST image item carrying a data
payload (later image items overwrite earlier ones; image items without data
and non-text/non-image items are ignored), falling back to the image state
already accumulated by the batch when the list holds no image item. -/
theorem list_result_normalization (l : List MCPItem) (img0 : Option ImagePayload) :
    processItems l img0 = (textJoin (itemTexts l), lastOpt (itemImages l) img0) ∧
    (∀ (xs : List ImagePayload) (i : Option ImagePayload) (p : ImagePayload),
      lastOpt (xs ++ [p]) i = some p) :=
  ⟨processItems_eq l img0, lastOpt_append_last⟩

/-! ## Theorems: Orchestration Loop -/

theorem predictLoop_terminal (client : Option MCPClient) (resp : ModelResponse)
    (rest : List (Except String ModelResponse)) (msgs : List Message) (fr : String)
    (img : Option (String × String))
    (h : toolUsesOf resp.content = [] ∨ resp.stop_reason ≠ some "tool_use") :
    predictLoop client (Except.ok resp :: rest) msgs fr img =
      some ((if textOf resp.content = "" then fr else fr ++ textOf resp.content),
        img, msgs) := by
  simp only [predictLoop]
  rw [if_pos h]

theorem handle_tool_calls_ok (client : Option MCPClient) (calls : List ToolCall)
    (h : calls ≠ []) :
    ∃ r i2, handle_tool_calls client calls = Except.ok (r, i2) := by
  cases client with
  | none =>
      cases calls with
      | nil => exact absurd rfl h
      | cons tc rest => exact ⟨_, _, rfl⟩
  | some c => exact ⟨_, _, handle_tool_calls_some c calls⟩

/-- The `if image_data: final_image = ...` update of the loop. -/
def imageUpdate (i2 : Option ImagePayload) (img : Option (String × String)) :
    Option (String × String) :=
  match i2 with
  | some i => some (i.data, i.mime_type)
  | none => img

theorem predictLoop_step (client : Option MCPClient) (resp : ModelResponse)
    (rest : List (Except String ModelResponse)) (msgs : List Message) (fr : String)
    (img : Option (String × String))
    (h1 : toolUsesOf resp.content ≠ []) (h2 : resp.stop_reason = some "tool_use")
    (r : DispatchReturn) (i2 : Option ImagePayload)
    (hd : handle_tool_calls client (toolUsesOf resp.content) = Except.ok (r, i2)) :
    predictLoop client (Except.ok resp :: rest) msgs fr img =
      predictLoop client rest
        ((msgs ++ [assistantMessage (textOf resp.content) (toolUsesOf resp.content)]) ++
          toolResultMessages (outcomes r))
        ((if textOf resp.content = "" then fr else fr ++ textOf resp.content) ++ marker)
        (imageUpdate i2 img) := by
  simp only [predictLoop]
  rw [if_neg (by simp [h1, h2])]
  simp only [hd]
  cases i2 <;> rfl

/-- C3: a model response whose content holds zero tool-use blocks always
terminates the loop on that iteration — regardless of the reported stop
reason — returning the accumulated text (and the image and message log as
they stood). -/
theorem loop_terminates_without_tool_use (client : Option MCPClient)
    (resp : ModelResponse) (rest : List (Except String ModelResponse))
    (msgs : List Message) (fr : String) (img : Option (String × String))
    (h : toolUsesOf resp.content = []) :
    predictLoop client (Except.ok resp :: rest) msgs fr img =
      some ((if textOf resp.content = "" then fr else fr ++ textOf resp.content),
        img, msgs) :=
  predictLoop_terminal client resp rest msgs fr img (Or.inl h)

/-- A plain-text response that even REPORTS `tool_use` as its stop reason,
yet carries no tool-use block. -/
def respPlain : ModelResponse :=
  { content := [ContentBlock.text "hi"], stop_reason := some "tool_use" }

/-- Witness for `loop_terminates_without_tool_use`: the loop terminates on
`respPlain` although its stop reason claims tool use. -/
theorem loop_terminates_without_tool_use_witness :
    toolUsesOf respPlain.content = [] ∧
    predictLoop none [Except.ok respPlain] [] "" none = some ("hi", none, []) :=
  ⟨rfl, by rw [loop_terminates_without_tool_use none respPlain [] [] "" none rfl]; rfl⟩

/-- A provider returning a plain value for every call. -/
def clientPlain : MCPClient := ⟨fun _ _ => Except.ok (CallResult.plain "ok")⟩

/-- A response requesting two tool calls. -/
def respTwoTools : ModelResponse :=
  { content := [ContentBlock.text "calling", ContentBlock.toolUse tcA,
                ContentBlock.toolUse tcB]
  , stop_reason := some "tool_use" }

/-- A closing response with no tool use. -/
def respDone : ModelResponse :=
  { content := [ContentBlock.text "done"], stop_reason := some "end_turn" }

/-- C2 counterexample: a single iteration dispatching the two-call batch of
`respTwoTools` appends THREE messages (one assistant message and one user
message per outcome), not exactly two: starting from an empty conversation,
the loop's final message log has length 3. -/
theorem loop_appends_three_messages_cex :
    (predictLoop (some clientPlain) [Except.ok respTwoTools, Except.ok respDone]
      [] "" none).map (fun r => r.2.2.length) = some 3 := by
  rfl

/-- C2 (amended): on an iteration whose response holds at least one tool-use
block AND reports stop reason "tool_use", the conversation grows before the
next model call by one assistant message (the iteration's text if non-empty,
then the tool-use blocks in original order) followed by one user message per
outcome, each carrying a single tool-result block, in outcome order; an
iteration with tool-use blocks but any other stop reason instead terminates
the loop and appends nothing. -/
theorem loop_tool_batch_messages (client : Option MCPClient) (resp : ModelResponse)
    (rest : List (Except String ModelResponse)) (msgs : List Message) (fr : String)
    (img : Option (String × String)) (h1 : toolUsesOf resp.content ≠ []) :
    (resp.stop_reason = some "tool_use" →
      ∃ r i2, handle_tool_calls client (toolUsesOf resp.content) = Except.ok (r, i2) ∧
        predictLoop client (Except.ok resp :: rest) msgs fr img =
          predictLoop client rest
            ((msgs ++ [assistantMessage (textOf resp.content) (toolUsesOf resp.content)]) ++
              toolResultMessages (outcomes r))
            ((if textOf resp.content = "" then fr else fr ++ textOf resp.content) ++ marker)
            (imageUpdate i2 img) ∧
        (toolResultMessages (outcomes r)).length = (outcomes r).length) ∧
    (resp.stop_reason ≠ some "tool_use" →
      predictLoop client (Except.ok resp :: rest) msgs fr img =
        some ((if textOf resp.content = "" then fr else fr ++ textOf resp.content),
          img, msgs)) := by
  constructor
  · intro h2
    obtain ⟨r, i2, hd⟩ := handle_tool_calls_ok client (toolUsesOf resp.content) h1
    exact ⟨r, i2, hd, predictLoop_step client resp rest msgs fr img h1 h2 r i2 hd,
      List.length_map _ _⟩
  · intro h2
    exact predictLoop_terminal client resp rest msgs fr img (Or.inr h2)

/-- Witness for `loop_tool_batch_messages` on the two-call batch. -/
theorem loop_tool_batch_messages_witness :
    ∃ r i2, handle_tool_calls (some clientPlain) (toolUsesOf respTwoTools.content) =
        Except.ok (r, i2) ∧
      predictLoop (some clientPlain) [Except.ok respTwoTools, Except.ok respDone]
          [] "" none =
        predictLoop (some clientPlain) [Except.ok respDone]
          (([] ++ [assistantMessage (textOf respTwoTools.content)
              (toolUsesOf respTwoTools.content)]) ++ toolResultMessages (outcomes r))
          ((if textOf respTwoTools.content = "" then ""
            else "" ++ textOf respTwoTools.content) ++ marker)
          (imageUpdate i2 none) ∧
      (toolResultMessages (outcomes r)).length = (outcomes r).length :=
  (loop_tool_batch_messages (some clientPlain) respTwoTools [Except.ok respDone]
    [] "" none (by decide)).1 rfl

/-! ## Theorems: the tool-use marker in the accumulated response text -/

/-- Boolean test that `pat` is an initial segment of `s`. -/
def isPre : List Char → List Char → Bool
  | [], _ => true
  | _ :: _, [] => false
  | a :: as, b :: bs => if a = b then isPre as bs else false

/-- Number of positions of `s` at which the marker text occurs. -/
def countM : List Char → Nat
  | [] => 0
  | c :: rest => (if isPre marker.data (c :: rest) then 1 else 0) + countM rest

/-- Number of positions of a string at which the marker text occurs. -/
def countMarker (s : String) : Nat := countM s.data

/-- The turn's final text: the per-iteration texts interleaved with the
marker (one marker after each text that was followed by a dispatch). -/
def assembleTexts : List String → String
  | [] => ""
  | [t] => t
  | t :: ts => t ++ marker ++ assembleTexts ts

theorem fr_update_eq (fr t : String) : (if t = "" then fr else fr ++ t) = fr ++ t := by
  by_cases h : t = "" <;> simp [h]

theorem assembleTexts_cons (t : String) (ts : List String) (h : ts ≠ []) :
    assembleTexts (t :: ts) = t ++ marker ++ assembleTexts ts := by
  cases ts with
  | nil => exact absurd rfl h
  | cons a l => rfl

theorem countM_skip (t rest : List Char) (h : ∀ c ∈ t, c ≠ '\n') :
    countM (t ++ rest) = countM rest := by
  induction t with
  | nil => rfl
  | cons c l ih =>
      have hc : c ≠ '\n' := h c (List.mem_cons_self c l)
      have hl : ∀ x ∈ l, x ≠ '\n' := fun x hx => h x (List.mem_cons_of_mem c hx)
      have hu : countM ((c :: l) ++ rest) =
          (if isPre marker.data (c :: (l ++ rest)) then 1 else 0) + countM (l ++ rest) := rfl
      rw [hu, ih hl]
      simp [isPre, Ne.symm hc, marker]

theorem countM_marker (r : List Char) (h : isPre (marker.data.drop 1) r = false) :
    countM (marker.data ++ r) = 1 + countM r := by
  simp only [marker] at h ⊢
  simp only [countM, List.cons_append, List.nil_append, isPre]
  simp [isPre, h]
  exact h

theorem isPre_tail_assemble (ts : List String)
    (h : ∀ t ∈ ts, ∀ c ∈ t.data, c ≠ '\n') :
    isPre (marker.data.drop 1) (assembleTexts ts).data = false := by
  cases ts with
  | nil => rfl
  | cons t ts =>
      cases ts with
      | nil =>
          cases ht : t.data with
          | nil =>
              simp only [assembleTexts]
              rw [ht]
              rfl
          | cons c l =>
              have hc : c ≠ '\n' := h t (by simp) c (by simp [ht])
              simp only [assembleTexts]
              rw [ht]
              simp [isPre, marker, Ne.symm hc]
      | cons t2 ts2 =>
          cases ht : t.data with
          | nil =>
              simp only [assembleTexts]
              rw [String.data_append, String.data_append, ht]
              simp [isPre, marker]
          | cons c l =>
              have hc : c ≠ '\n' := h t (by simp) c (by simp [ht])
              simp only [assembleTexts]
              rw [String.data_append, String.data_append, ht]
              simp [isPre, marker, Ne.symm hc]

theorem countM_assemble : ∀ ts : List String, ts ≠ [] →
    (∀ t ∈ ts, ∀ c ∈ t.data, c ≠ '\n') →
    countM (assembleTexts ts).data = ts.length - 1 := by
  intro ts
  induction ts with
  | nil => intro hne _; exact absurd rfl hne
  | cons t ts ih =>
      intro _ h
      cases ts with
      | nil =>
          have h0 : countM (t.data ++ []) = countM [] :=
            countM_skip t.data [] (h t (by simp))
          simp only [assembleTexts]
          simpa [List.append_nil, countM] using h0
      | cons t2 ts2 =>
          have h2 : ∀ x ∈ t2 :: ts2, ∀ c ∈ x.data, c ≠ '\n' :=
            fun x hx => h x (by simp [hx])
          simp only [assembleTexts]
          rw [String.data_append, String.data_append, List.append_assoc]
          rw [countM_skip _ _ (h t (by simp))]
          rw [countM_marker _ (isPre_tail_assemble _ h2)]
          rw [ih (by simp) h2]
          simp [Nat.add_comm]

theorem predictLoop_rounds (client : Option MCPClient) :
    ∀ (rounds : List ModelResponse) (term : ModelResponse)
      (rest : List (Except String ModelResponse)) (msgs : List Message)
      (fr : String) (img : Option (String × String)),
    (∀ r ∈ rounds, toolUsesOf r.content ≠ [] ∧ r.stop_reason = some "tool_use") →
    toolUsesOf term.content = [] →
    ∃ imgF msgsF,
      predictLoop client (rounds.map Except.ok ++ Except.ok term :: rest) msgs fr img =
        some (fr ++ assembleTexts (rounds.map (fun r => textOf r.content) ++
          [textOf term.content]), imgF, msgsF) := by
  intro rounds
  induction rounds with
  | nil =>
      intro term rest msgs fr img _ h2
      refine ⟨img, msgs, ?_⟩
      rw [List.map_nil, List.nil_append,
        predictLoop_terminal client term rest msgs fr img (Or.inl h2)]
      simp only [List.map_nil, List.nil_append, assembleTexts, fr_update_eq]
  | cons rd rds ih =>
      intro term rest msgs fr img h1 h2
      obtain ⟨hne, hstop⟩ := h1 rd (by simp)
      obtain ⟨r, i2, hd⟩ := handle_tool_calls_ok client (toolUsesOf rd.content) hne
      rw [List.map_cons, List.cons_append,
        predictLoop_step client rd (rds.map Except.ok ++ Except.ok term :: rest)
          msgs fr img hne hstop r i2 hd]
      obtain ⟨imgF, msgsF, hrec⟩ := ih term rest
        ((msgs ++ [assistantMessage (textOf rd.content) (toolUsesOf rd.content)]) ++
          toolResultMessages (outcomes r))
        ((if textOf rd.content = "" then fr else fr ++ textOf rd.content) ++ marker)
        (imageUpdate i2 img) (fun x hx => h1 x (by simp [hx])) h2
      refine ⟨imgF, msgsF, ?_⟩
      rw [hrec, fr_update_eq]
      rw [List.map_cons, List.cons_append,
        assembleTexts_cons _ _ (by simp)]
      simp [String.append_assoc]

/-- C9: after every loop iteration that dispatches tools, the literal marker
"\n\n[도구 사용 중...]\n" is appended to the accumulated response text, so a
turn whose oracle runs N dispatch rounds and then a terminal response returns
the per-iteration texts interleaved with exactly N markers — the returned
text is not the plain concatenation of the model's text blocks — and,
whenever the model's own texts contain no newline character (so that they
cannot themselves spell or complete a marker), the returned text contains
the marker at exactly N positions. -/
theorem loop_marker_per_dispatch (client : Option MCPClient)
    (rounds : List ModelResponse) (term : ModelResponse)
    (rest : List (Except String ModelResponse)) (msgs : List Message)
    (img : Option (String × String))
    (h1 : ∀ r ∈ rounds, toolUsesOf r.content ≠ [] ∧ r.stop_reason = some "tool_use")
    (h2 : toolUsesOf term.content = []) :
    (∃ imgF msgsF,
      predictLoop client (rounds.map Except.ok ++ Except.ok term :: rest) msgs "" img =
        some (assembleTexts (rounds.map (fun r => textOf r.content) ++
          [textOf term.content]), imgF, msgsF)) ∧
    ((∀ t ∈ rounds.map (fun r => textOf r.content) ++ [textOf term.content],
        ∀ c ∈ t.data, c ≠ '\n') →
      countMarker (assembleTexts (rounds.map (fun r => textOf r.content) ++
        [textOf term.content])) = rounds.length) := by
  constructor
  · obtain ⟨imgF, msgsF, hh⟩ :=
      predictLoop_rounds client rounds term rest msgs "" img h1 h2
    refine ⟨imgF, msgsF, ?_⟩
    rw [hh]
    simp
  · intro hnl
    have hc := countM_assemble
      (rounds.map (fun r => textOf r.content) ++ [textOf term.content]) (by simp) hnl
    simpa [countMarker] using hc

/-- A response carrying text and one tool-use request. -/
def respOneTool : ModelResponse :=
  { content := [ContentBlock.text "t1", ContentBlock.toolUse tcA]
  , stop_reason := some "tool_use" }

/-- Witness for `loop_marker_per_dispatch`: one dispatch round followed by a
terminal response, with newline-free model texts. -/
theorem loop_marker_per_dispatch_witness :
    (∃ imgF msgsF,
      predictLoop none ([respOneTool].map Except.ok ++ Except.ok respDone :: []) [] "" none =
        some (assembleTexts ([respOneTool].map (fun r => textOf r.content) ++
          [textOf respDone.content]), imgF, msgsF)) ∧
    countMarker (assembleTexts ([respOneTool].map (fun r => textOf r.content) ++
      [textOf respDone.content])) = [respOneTool].length := by
  have h := loop_marker_per_dispatch none [respOneTool] respDone [] [] none
    (by decide) rfl
  exact ⟨h.1, h.2 (by decide)⟩

/-! ## Theorems: connection management -/

/-- Full characterization of the session state after one `connect` call: any
failing step leaves the cleared (disconnected) state, and only the fully
successful path installs the new client with the new provider's translated
tools. -/
theorem connect_spec (w : ConnectWorld) (p : String) (s : SessionState) :
    (connect_to_mcp_server w p s).1 =
      if s.mcp_client.isSome ∧ w.closeError.isSome then ⟨none, []⟩
      else if p = "" ∨ p.trim = "" then ⟨none, []⟩
      else if w.createError.isSome then ⟨none, []⟩
      else if w.enterError.isSome then ⟨none, []⟩
      else match w.listToolsResult with
        | Except.error _ => ⟨none, []⟩
        | Except.ok ts => ⟨some w.client, ts.map convert_mcp_tool_to_claude_format⟩ := by
  obtain ⟨sc, st⟩ := s
  obtain ⟨ce, cre, ee, ltr, cl⟩ := w
  cases sc <;> cases ce <;> cases cre <;> cases ee <;> cases ltr <;>
    by_cases hp : p = "" ∨ p.trim = "" <;>
    simp [connect_to_mcp_server, hp]

/-- C8: after two successive `connect` calls, the session holds at most one
active connection and its cached tool list is exactly the translation of the
second provider's tool list (never a merge with the first's); any failure of
the second connect — path rejected, client construction or entering raised,
or `list_tools` raised — leaves the session fully disconnected (no client,
empty tool list), never partially connected. -/
theorem connect_twice_exclusive (w1 w2 : ConnectWorld) (p1 p2 : String)
    (s0 : SessionState) :
    ((connect_to_mcp_server w2 p2 (connect_to_mcp_server w1 p1 s0).1).1 = ⟨none, []⟩ ∨
      ∃ ts2, w2.listToolsResult = Except.ok ts2 ∧
        (connect_to_mcp_server w2 p2 (connect_to_mcp_server w1 p1 s0).1).1 =
          ⟨some w2.client, ts2.map convert_mcp_tool_to_claude_format⟩) ∧
    (∀ e, w2.listToolsResult = Except.error e →
      (connect_to_mcp_server w2 p2 (connect_to_mcp_server w1 p1 s0).1).1 = ⟨none, []⟩) ∧
    ((p2 = "" ∨ p2.trim = "") ∨ w2.createError.isSome ∨ w2.enterError.isSome →
      (connect_to_mcp_server w2 p2 (connect_to_mcp_server w1 p1 s0).1).1 = ⟨none, []⟩) := by
  refine ⟨?_, ?_, ?_⟩
  · rw [connect_spec]
    split_ifs
    · exact Or.inl rfl
    · exact Or.inl rfl
    · exact Or.inl rfl
    · exact Or.inl rfl
    · cases hl : w2.listToolsResult with
      | error e => exact Or.inl rfl
      | ok ts => exact Or.inr ⟨ts, rfl, rfl⟩
  · intro e he
    rw [connect_spec]
    split_ifs <;> simp [he]
  · intro h
    rw [connect_spec]
    split_ifs <;> simp_all

/-- A connect environment that fully succeeds with an empty tool list. -/
def wOk : ConnectWorld :=
  { closeError := none, createError := none, enterError := none
  , listToolsResult := Except.ok [], client := clientPlain }

/-- A connect environment whose `list_tools` raises. -/
def wListFails : ConnectWorld :=
  { closeError := none, createError := none, enterError := none
  , listToolsResult := Except.error "boom", client := clientPlain }

/-- Witness for `connect_twice_exclusive`: a failing second connect (raised
`list_tools`, and separately an empty path) leaves the cleared session. -/
theorem connect_twice_exclusive_witness :
    (connect_to_mcp_server wListFails "b.py"
      (connect_to_mcp_server wOk "a.py" ⟨none, []⟩).1).1 = ⟨none, []⟩ ∧
    (connect_to_mcp_server wOk ""
      (connect_to_mcp_server wOk "a.py" ⟨none, []⟩).1).1 = ⟨none, []⟩ :=
  ⟨(connect_twice_exclusive wOk wListFails "a.py" "b.py" ⟨none, []⟩).2.1 "boom" rfl,
   (connect_twice_exclusive wOk wOk "a.py" "" ⟨none, []⟩).2.2 (Or.inl (Or.inl rfl))⟩

/-! ## Theorems: image-generation tool server -/

/-- C10: `generate_image` never raises for any prompt (it is total over every
backend environment): on any failure of the backend call or of reading the
image it returns exactly one text item whose text embeds the error detail
after the request summary (and no image item); on success it returns exactly
one text item followed by one image item carrying the encoded image data and
a mime type. -/
theorem generate_image_shape (w : ServerWorld) (prompt : String) :
    (∃ e, generate_image w prompt =
      [ServerContent.text (requestText prompt ++ "\n생성 실패: " ++ e)]) ∨
    (∃ t d m, generate_image w prompt = [ServerContent.text t, ServerContent.image d m] ∧
      t = requestText prompt ++ "\n생성 완료! (소요 시간: " ++ w.elapsed ++ "초)") := by
  cases hi : w.infer prompt with
  | error e => exact Or.inl ⟨e, by simp [generate_image, hi]⟩
  | ok pr =>
      obtain ⟨ip, sd⟩ := pr
      cases hr : w.readFile ip with
      | error e => exact Or.inl ⟨e, by simp [generate_image, hi, hr]⟩
      | ok bytes =>
          refine Or.inr ⟨requestText prompt ++ "\n생성 완료! (소요 시간: " ++
            w.elapsed ++ "초)", w.b64encode bytes, mimeOf ip, ?_, rfl⟩
          simp [generate_image, hi, hr]

end MCPApp
